import Mathlib

/-!
Verification development for the flows image-loading pipeline
(`src/flows/load_image.py`).

The Python source is shallowly embedded below.  Pixel samples are modelled
as `Option ℚ`: `some v` is a finite floating-point value, `none` is a
non-finite value (NaN); numpy elementwise equality `img == value` is
`· = some value`, which is false for NaN exactly as in IEEE arithmetic.
Headers are association lists from FITS keyword to value; a value is a
string or a number.  Fallible Python code (raising) is embedded in
`Except PyErr`.
-/

/-- A pixel sample: `some v` is a finite value, `none` a non-finite one. -/
abbrev Pix := Option ℚ

/-- The kinds of Python exception raised by the embedded code. -/
inductive PyErr where
  | valueError
  | runtimeError
  | attributeError
  | indexError
deriving DecidableEq, Repr

/-- A FITS header value: a string or a number. -/
inductive HVal where
  | str (s : String)
  | num (q : ℚ)
deriving DecidableEq, Repr

/-- A FITS header: association list from keyword to value. -/
abbrev Header := List (String × HVal)

/-- Embeds `header.get(key)` / `key in header`: first binding of `key`. -/
def hget (hdr : Header) (k : String) : Option HVal :=
  match hdr with
  | [] => none
  | (k', v) :: rest => if k' = k then some v else hget rest k

/-- Auxiliary scan for substring containment over character lists. -/
def containsAux (sub : List Char) : List Char → Bool
  | [] => sub.isEmpty
  | c :: t => sub.isPrefixOf (c :: t) || containsAux sub t

/-- Embeds the Python substring test `sub in s`. -/
def substrIn (sub s : String) : Bool :=
  containsAux sub.data s.data

/-- Whitespace characters removed by the Python `str.strip()`. -/
def isPySpace (c : Char) : Bool :=
  decide (c.toNat = 32) || decide (c.toNat = 9) || decide (c.toNat = 10) ||
  decide (c.toNat = 13) || decide (c.toNat = 11) || decide (c.toNat = 12)

/-- Drop leading whitespace from a character list. -/
def stripLeftChars : List Char → List Char
  | [] => []
  | c :: t => if isPySpace c then stripLeftChars t else c :: t

/-- Embeds the Python `str.strip()`: drop whitespace at both ends. -/
def pyStrip (s : String) : String :=
  ⟨(stripLeftChars (stripLeftChars s.data.reverse).reverse)⟩

/-- ASCII lower-casing of one character, as Python `str.lower()` does on
the ASCII header values handled here. -/
def lowerChar (c : Char) : Char :=
  if 65 ≤ c.toNat ∧ c.toNat ≤ 90 then Char.ofNat (c.toNat + 32) else c

/-- Embeds the Python `str.lower()`. -/
def pyLower (s : String) : String :=
  ⟨s.data.map lowerChar⟩

/-- ASCII upper-casing of one character. -/
def upperChar (c : Char) : Char :=
  if 97 ≤ c.toNat ∧ c.toNat ≤ 122 then Char.ofNat (c.toNat - 32) else c

/-- Embeds the Python `str.upper()`. -/
def pyUpper (s : String) : String :=
  ⟨s.data.map upperChar⟩

/-- Embeds the Python `str.startswith(pre)`. -/
def pyStartsWith (s pre : String) : Bool :=
  pre.data.isPrefixOf s.data

/-- Fuelled body of the Python `str.replace(pat, rep)`: replace
non-overlapping occurrences left to right (the fuel is the list length,
so it never runs out). -/
def replaceChars (pat rep : List Char) : ℕ → List Char → List Char
  | 0, l => l
  | _+1, [] => []
  | f+1, c :: t =>
      if pat.isPrefixOf (c :: t) then
        rep ++ replaceChars pat rep f (List.drop (pat.length - 1) t)
      else
        c :: replaceChars pat rep f t

/-- Embeds the Python `str.replace(pat, rep)` for non-empty `pat`. -/
def pyReplace (s pat rep : String) : String :=
  ⟨replaceChars pat.data rep.data s.data.length s.data⟩

/-- Embeds the numpy elementwise test `pixel == value` (false on NaN). -/
def pixEq (p : Pix) (v : ℚ) : Bool :=
  decide (p = some v)

/-- Embeds `np.isfinite` on one pixel. -/
def pixFinite (p : Pix) : Bool :=
  p.isSome

/-- Embeds the `FlowsImage` dataclass: pixel grid, mask and the `clean`
masked view; `m × n` is `image.shape`.  The pixel grid and mask are kept
as total functions read on `[0, m) × [0, n)`. -/
structure FlowsImage where
  m : ℕ
  n : ℕ
  image : ℕ → ℕ → Pix
  mask : ℕ → ℕ → Bool
  clean : Option ((ℕ → ℕ → Pix) × (ℕ → ℕ → Bool)) := none

/-- Embeds `FlowsImage.check_finite`: `self.mask |= ~np.isfinite(self.image)`. -/
def check_finite (fi : FlowsImage) : FlowsImage :=
  { fi with mask := fun i j => fi.mask i j || !pixFinite (fi.image i j) }

/-- Embeds `FlowsImage.__post_init__`: allocate an all-false mask when none
was supplied, then `check_finite`. -/
def post_init (m n : ℕ) (image : ℕ → ℕ → Pix) (mask? : Option (ℕ → ℕ → Bool)) :
    FlowsImage :=
  check_finite { m := m, n := n, image := image,
                 mask := mask?.getD (fun _ _ => false), clean := none }

/-- Embeds `FlowsImage.update_mask`: replace the mask, then `check_finite`. -/
def update_mask (fi : FlowsImage) (mask : ℕ → ℕ → Bool) : FlowsImage :=
  check_finite { fi with mask := mask }

/-- The pixel grid after `self.image[self.mask] = np.NaN`. -/
def masked_pixels (fi : FlowsImage) : ℕ → ℕ → Pix :=
  fun i j => if fi.mask i j then none else fi.image i j

/-- Embeds `FlowsImage.create_masked_image`: stamp NaN at masked positions
in place and produce the `clean` masked view over the same data. -/
def create_masked_image (fi : FlowsImage) : FlowsImage :=
  { fi with image := masked_pixels fi, clean := some (masked_pixels fi, fi.mask) }

/-- Embeds `FlowsImage.set_edge_rows_to_value`: rows listed in `y` are set
to `value`. -/
def set_edge_rows_to_value (fi : FlowsImage) (y : List ℕ) (value : ℚ) : FlowsImage :=
  { fi with image := fun i j => if y.contains i then some value else fi.image i j }

/-- Embeds `FlowsImage.set_edge_columns_to_value`. -/
def set_edge_columns_to_value (fi : FlowsImage) (x : List ℕ) (value : ℚ) : FlowsImage :=
  { fi with image := fun i j => if x.contains j then some value else fi.image i j }

/-- Embeds `np.all(mask1, axis=1)` for row `i`: the whole row equals `value`. -/
def rowAllVal (img : ℕ → ℕ → Pix) (v : ℚ) (N i : ℕ) : Bool :=
  decide (∀ j, j < N → pixEq (img i j) v = true)

/-- Embeds `np.all(mask1, axis=0)` for column `j`. -/
def colAllVal (img : ℕ → ℕ → Pix) (v : ℚ) (M j : ℕ) : Bool :=
  decide (∀ i, i < M → pixEq (img i j) v = true)

/-- Embeds `np.argmin` on a boolean vector scanned from `s` for `t` steps:
index of the first `false`, and `0` when every scanned entry is `true`. -/
def firstFalse (f : ℕ → Bool) : ℕ → ℕ → ℕ
  | _, 0 => 0
  | s, t+1 => if f s = true then firstFalse f (s+1) t else s

/-- Embeds the Python slice assignment `mask[-b:, col] = True` membership:
row `idx` is written; `b = 0` selects the whole axis since `-0 == 0`. -/
def negSlice (len b idx : ℕ) : Bool :=
  if b = 0 then true else decide (len - b ≤ idx)

/-- Embeds the static method `FlowsImage.get_edge_mask(img, value)`.
`M × N` is `img.shape`.  The four per-column/per-row passes of the source
only ever set mask bits, so the sequentially built mask is the pointwise
disjunction of their contributions. -/
def get_edge_mask (M N : ℕ) (img : ℕ → ℕ → Pix) (v : ℚ) : ℕ → ℕ → Bool :=
  fun i j =>
    rowAllVal img v N i || colAllVal img v M j ||
    (pixEq (img 0 j) v && decide (i < firstFalse (fun t => pixEq (img t j) v) 0 M)) ||
    (pixEq (img (M-1) j) v &&
      negSlice M (firstFalse (fun t => pixEq (img (M-1-t) j) v) 0 M) i) ||
    (pixEq (img i 0) v && decide (j < firstFalse (fun t => pixEq (img i t) v) 0 N)) ||
    (pixEq (img i (N-1)) v &&
      negSlice N (firstFalse (fun t => pixEq (img i (N-1-t)) v) 0 N) j)

/-- Embeds `FlowsImage.apply_edge_mask(y, x, apply_existing_mask_first)`:
optionally stamp the existing mask; zero the given rows/columns; then
replace the mask by the freshly computed edge mask and materialise the
masked image. -/
def apply_edge_mask (fi : FlowsImage) (y x : Option (List ℕ))
    (apply_existing_mask_first : Bool) : FlowsImage :=
  let fi1 := if apply_existing_mask_first then create_masked_image fi else fi
  let fi2 := match y with
    | some ys => set_edge_rows_to_value fi1 ys 0
    | none => fi1
  let fi3 := match x with
    | some xs => set_edge_columns_to_value fi2 xs 0
    | none => fi2
  create_masked_image { fi3 with mask := get_edge_mask fi3.m fi3.n fi3.image 0 }

/-- The container invariant claimed by the spec: every non-finite pixel
position (within the image shape) is masked. -/
def finite_invariant (fi : FlowsImage) : Prop :=
  ∀ i, i < fi.m → ∀ j, j < fi.n → pixFinite (fi.image i j) = false → fi.mask i j = true

instance (fi : FlowsImage) : Decidable (finite_invariant fi) := by
  unfold finite_invariant
  infer_instance

/-- Which `identifier` implementation a variant uses: the inherited default
or one of the three class-level overrides in the source. -/
inductive IdKind where
  | default
  | swope
  | swopeNewheader
  | sofi
deriving DecidableEq, Repr

/-- Which `get_ext` implementation a variant uses. -/
inductive ExtKind where
  | default
  | hawki
deriving DecidableEq, Repr

/-- Which `get_mask` implementation a variant uses. -/
inductive MaskKind where
  | default
  | lcogt
deriving DecidableEq, Repr

/-- The match-relevant class-level configuration of one `Instrument`
subclass: the fields read by `identifier`, `get_ext` and `get_mask`
(`telescope`, `instrument`, `origin`, `unique_headers`, plus which method
overrides apply).  Bare colon-annotated class fields in the source create
no class attribute, so the embedded spec of such a class keeps the
inherited values (empty strings / `none`). -/
structure InstSpec where
  name : String
  telescope : String := ""
  instrument : String := ""
  origin : String := ""
  unique_headers : Option (List (String × HVal)) := none
  idKind : IdKind := .default
  extKind : ExtKind := .default
  maskKind : MaskKind := .default
deriving DecidableEq, Repr

/-- The `unique_conds` part of `Instrument.identifier`: every configured
unique header key is present with exactly the configured value. -/
def uniqueConds (s : InstSpec) (hdr : Header) : Bool :=
  match s.unique_headers with
  | none => true
  | some uh => uh.all (fun p => decide (hget hdr p.1 = some p.2))

/-- Embeds the inherited `Instrument.identifier` classmethod. -/
def defaultIdentifier (s : InstSpec) (telescope origin instrument : String)
    (hdr : Header) : Bool :=
  uniqueConds s hdr &&
  (if s.telescope = "" then true else substrIn s.telescope telescope) &&
  (if s.origin = "" then true else decide (s.origin = origin)) &&
  (if s.instrument = "" then true else substrIn s.instrument instrument)

/-- Runs the variant's `identifier` predicate, dispatching on which class
overrides it (`Swope`, `Swope_newheader` and `Sofi` define their own). -/
def runIdentifier (s : InstSpec) (telescope origin instrument : String)
    (hdr : Header) : Bool :=
  match s.idKind with
  | .default => defaultIdentifier s telescope origin instrument hdr
  | .swope =>
      pyStartsWith (pyUpper telescope) s.telescope &&
      decide (hget hdr "SITENAME" = some (.str "LCO"))
  | .swopeNewheader =>
      pyStartsWith (pyUpper telescope) "SWO" && decide (origin = "ziggy")
  | .sofi =>
      decide (instrument = s.instrument) &&
      (decide (telescope = "ESO-NTT") || decide (telescope = "other"))

/-- One HDU of a FITS file: extension name, header, the `NAXIS1`/`NAXIS2`
header values, the (external, astropy-computed) world-to-pixel projection
of `WCS.all_world2pix` as an abstract function, and the data grid. -/
structure HDU where
  name : String := ""
  header : Header := []
  naxis1 : ℕ := 0
  naxis2 : ℕ := 0
  world2pix : ℚ × ℚ → ℚ × ℚ := id
  data : List (List ℚ) := []

/-- A FITS file handle: the list of its HDUs (`hdul`). -/
abbrev HDUList := List HDU

/-- The target-coordinate argument: a SkyCoord or a tuple of numbers. -/
inductive TargetInput where
  | sky (ra dec : ℚ)
  | tup (cs : List ℚ)

/-- Embeds `verify_coordinates`: pass a SkyCoord through, build one from a
length-2 tuple, and return `None` otherwise. -/
def verify_coordinates : Option TargetInput → Option (ℚ × ℚ)
  | none => none
  | some (.sky ra dec) => some (ra, dec)
  | some (.tup [a, b]) => some (a, b)
  | some (.tup _) => none

/-- The bounds test of `HAWKI.get_ext`: the projected pixel position lies
within `[-0.5, NAXIS1-0.5] × [-0.5, NAXIS2-0.5]`. -/
def hawkiInBounds (e : HDU) (pix : ℚ × ℚ) : Bool :=
  decide (-(1/2 : ℚ) ≤ pix.1) && decide (pix.1 ≤ (e.naxis1 : ℚ) - 1/2) &&
  decide (-(1/2 : ℚ) ≤ pix.2) && decide (pix.2 ≤ (e.naxis2 : ℚ) - 1/2)

/-- The `for k in range(1, 5)` search loop of `HAWKI.get_ext`. -/
def hawkiSearch (hdul : HDUList) (tc : ℚ × ℚ) (fallback_extension : Option ℕ) :
    List ℕ → Except PyErr ℕ
  | [] =>
      match fallback_extension with
      | some f => .ok f
      | none => .error .runtimeError
  | k :: ks =>
      match hdul[k]? with
      | none => .error .indexError
      | some e =>
          if hawkiInBounds e (e.world2pix tc) then .ok k
          else hawkiSearch hdul tc fallback_extension ks

/-- Embeds the static method `HAWKI.get_ext(hdul, target_coords,
fallback_extension)`. -/
def hawki_get_ext (hdul : HDUList) (target_coords : Option TargetInput)
    (fallback_extension : Option ℕ) : Except PyErr ℕ :=
  match verify_coordinates target_coords with
  | none => .error .valueError
  | some tc => hawkiSearch hdul tc fallback_extension [1, 2, 3, 4]

/-- Embeds the static method `LCOGT.get_mask(hdul)`: the `BPM` extension
read as a boolean array if present, else no mask. -/
def lcogt_get_mask (hdul : HDUList) : Option (List (List Bool)) :=
  match hdul.find? (fun e => decide (e.name = "BPM")) with
  | some e => some (e.data.map (fun row => row.map (fun q => !decide (q = 0))))
  | none => none

/-- Runs the variant's `get_ext` (default extension `0`; `load_image` calls
it without a fallback extension). -/
def runGetExt (s : InstSpec) (hdul : HDUList) (target : Option TargetInput) :
    Except PyErr ℕ :=
  match s.extKind with
  | .default => .ok 0
  | .hawki => hawki_get_ext hdul target none

/-- Runs the variant's `get_mask` (default: no mask). -/
def runGetMask (s : InstSpec) (hdul : HDUList) : Option (List (List Bool)) :=
  match s.maskKind with
  | .default => none
  | .lcogt => lcogt_get_mask hdul

/-- Embeds class `LCOGT`: origin match only; has a custom `get_mask` (`BPM` extension). -/
def lcogtSpec : InstSpec :=
  { name := "LCOGT", origin := "LCOGT", maskKind := .lcogt }

/-- Embeds class `HAWKI`: full match criteria; custom extension search. -/
def hawkiSpec : InstSpec :=
  { name := "HAWKI", telescope := "ESO-VLT-U4", instrument := "HAWKI",
    origin := "ESO-PARANAL",
    unique_headers := some [("PRODCATG", .str "SCIENCE.MEFIMAGE")],
    extKind := .hawki }

/-- Embeds class `ALFOSC`. -/
def alfoscSpec : InstSpec :=
  { name := "ALFOSC", telescope := "NOT", instrument := "ALFOSC",
    unique_headers := some [("OBS_MODE", .str "imaging")] }

/-- Embeds class `NOTCAM`. -/
def notcamSpec : InstSpec :=
  { name := "NOTCAM", telescope := "NOT", instrument := "NOTCAM",
    unique_headers := some [("OBS_MODE", .str "imaging")] }

/-- Embeds class `PS1`. -/
def ps1Spec : InstSpec :=
  { name := "PS1",
    unique_headers := some [("FPA.TELESCOPE", .str "PS1"),
                            ("FPA.INSTRUMENT", .str "GPC1")] }

/-- Embeds class `Liverpool`. -/
def liverpoolSpec : InstSpec :=
  { name := "Liverpool", telescope := "Liverpool Telescope" }

/-- Embeds class `Omega2000`. -/
def omega2000Spec : InstSpec :=
  { name := "Omega2000", telescope := "CA 3.5m", instrument := "Omega2000" }

/-- Embeds class `Swope`: overrides `identifier` (telescope prefix + `SITENAME`). -/
def swopeSpec : InstSpec :=
  { name := "Swope", telescope := "SWO", idKind := .swope }

/-- Embeds class `Swope_newheader`: overrides `identifier` (telescope prefix + origin). -/
def swopeNewheaderSpec : InstSpec :=
  { name := "Swope_newheader", telescope := "SWO", idKind := .swopeNewheader }

/-- Embeds class `Dupont`. -/
def dupontSpec : InstSpec :=
  { name := "Dupont", telescope := "DUP", instrument := "Direct/SITe2K-1",
    unique_headers := some [("SITENAME", .str "LCO")] }

/-- Embeds class `RetroCam` (registry key `Retrocam`). -/
def retrocamSpec : InstSpec :=
  { name := "Retrocam", telescope := "DUP", instrument := "RetroCam" }

/-- Embeds class `Baade`. -/
def baadeSpec : InstSpec :=
  { name := "Baade", telescope := "Baade", instrument := "FourStar",
    unique_headers := some [("SITENAME", .str "LCO")] }

/-- Embeds class `Sofi`: overrides `identifier` (exact instrument + telescope pair). -/
def sofiSpec : InstSpec :=
  { name := "Sofi", instrument := "SOFI", idKind := .sofi }

/-- Embeds class `EFOSC`. -/
def efoscSpec : InstSpec :=
  { name := "EFOSC", telescope := "ESO-NTT", instrument := "EFOSC" }

/-- Embeds class `AstroNIRCam`. -/
def astronircamSpec : InstSpec :=
  { name := "AstroNIRCam", telescope := "SAI-2.5", instrument := "ASTRONIRCAM" }

/-- Embeds class `OmegaCam`. -/
def omegacamSpec : InstSpec :=
  { name := "OmegaCam", instrument := "OMEGACAM" }

/-- Embeds class `AndiCam`. -/
def andicamSpec : InstSpec :=
  { name := "AndiCam", instrument := "ANDICAM-CCD",
    unique_headers := some [("OBSERVAT", .str "CTIO")] }

/-- Embeds class `PairTel`. -/
def pairtelSpec : InstSpec :=
  { name := "PairTel", telescope := "1.3m PAIRITEL",
    instrument := "2MASS Survey cam" }

/-- Embeds class `TJO_MEIA2` (registry key `TJO_Meia2`). -/
def tjoMeia2Spec : InstSpec :=
  { name := "TJO_Meia2", telescope := "TJO", instrument := "MEIA2" }

/-- Embeds class `TJO_MEIA3` (registry key `TJO_Meia3`). -/
def tjoMeia3Spec : InstSpec :=
  { name := "TJO_Meia3", telescope := "TJO",  instrument := "MEIA3" }

/-- Embeds class `RATIR`. -/
def ratirSpec : InstSpec :=
  { name := "RATIR", telescope := "OAN/SPM Harold L. Johnson 1.5-meter" }

/-- Embeds class `Schmidt`: its `telescope`, `instrument` and `origin` class lines are
bare colon-annotated fields, so the inherited empty strings stay in force
and only the assigned `unique_headers` (`SITELAT`) constrains matching. -/
def schmidtSpec : InstSpec :=
  { name := "Schmidt", unique_headers := some [("SITELAT", .num 45.8494444)] }

/-- Embeds class `AFOSC`: its `telescope` and `instrument` class lines are bare
colon-annotated fields and nothing else is assigned, so every match
criterion keeps its inherited empty/none value. -/
def afoscSpec : InstSpec :=
  { name := "AFOSC" }

/-- The `instruments` registry dictionary, in insertion order of the
source's dict literal (Python dicts preserve insertion order, and
`load_image` iterates `instruments.items()` in that order). -/
def instruments : List InstSpec :=
  [lcogtSpec, hawkiSpec, alfoscSpec, notcamSpec, ps1Spec, liverpoolSpec,
   omega2000Spec, swopeSpec, swopeNewheaderSpec, dupontSpec, retrocamSpec,
   baadeSpec, sofiSpec, efoscSpec, astronircamSpec, omegacamSpec,
   andicamSpec, pairtelSpec, tjoMeia2Spec, tjoMeia3Spec, ratirSpec,
   schmidtSpec, afoscSpec]

/-- Dictionary lookup with default, embedding `table.get(key, default)`. -/
def lookupD (table : List (String × String)) (k d : String) : String :=
  match table.lookup k with
  | some v => v
  | none => d

/-- The condition under which an alternate-key filter value is collected:
the raw value is truthy (non-empty) and its stripped, lowercased form is
not the open position. -/
def plausibleFilter (v : String) : Bool :=
  !decide (v = "") && !decide (pyLower (pyStrip v) = "open")

/-- One step of the alternate-filter-key loop shared by
`ALFOSC.get_photfilter`, `NOTCAM.get_photfilter` (and `Sofi`): reading a
missing key raises (the source calls `.strip()` on `None`), a plausible
value is appended stripped. -/
def appendFilter (hdr : Header) (k : String) (acc : List String) :
    Except PyErr (List String) :=
  match hget hdr k with
  | none => .error .attributeError
  | some (.num _) => .error .attributeError
  | some (.str v) => .ok (if plausibleFilter v then acc ++ [pyStrip v] else acc)

/-- The `filters_used` accumulation loop over the given alternate keys. -/
def collectFilters (hdr : Header) : List String → List String →
    Except PyErr (List String)
  | [], acc => .ok acc
  | k :: ks, acc =>
      match appendFilter hdr k acc with
      | .error e => .error e
      | .ok acc2 => collectFilters hdr ks acc2

/-- The `FILTER`-present translation table of `ALFOSC.get_photfilter`
(looked up after `replace('_', ' ')` on the header value). -/
def alfoscFilterTableA : List (String × String) :=
  [("B Bes", "B"), ("V Bes", "V"), ("R Bes", "R"), ("g SDSS", "gp"),
   ("r SDSS", "rp"), ("i SDSS", "ip"), ("i int", "ip"), ("u SDSS", "up"),
   ("z SDSS", "zp")]

/-- The alternate-key translation table of `ALFOSC.get_photfilter`
(looked up after `replace('  ', ' ')` on the collected value). -/
def alfoscFilterTableB : List (String × String) :=
  [("B_Bes 440_100", "B"), ("V_Bes 530_80", "V"), ("R_Bes 650_130", "R"),
   ("g\x27_SDSS 480_145", "gp"), ("r\x27_SDSS 618_148", "rp"),
   ("i\x27_SDSS 771_171", "ip"), ("i_int 797_157", "ip"),
   ("z\x27_SDSS 832_LP", "zp")]

/-- Embeds `ALFOSC.get_photfilter`. -/
def alfosc_get_photfilter (hdr : Header) : Except PyErr String :=
  match hget hdr "FILTER" with
  | some (.str f) => .ok (lookupD alfoscFilterTableA (pyReplace f "_" " ") f)
  | some (.num _) => .error .attributeError
  | none =>
      match collectFilters hdr ["ALFLTNM", "FAFLTNM", "FBFLTNM"] [] with
      | .error e => .error e
      | .ok [f] => .ok (lookupD alfoscFilterTableB (pyReplace f "  " " ") f)
      | .ok _ => .error .runtimeError

/-- The translation table of `NOTCAM.get_photfilter`. -/
def notcamFilterTable : List (String × String) :=
  [("Ks", "K")]

/-- Embeds `NOTCAM.get_photfilter`: a defined `FILTER` keyword raises;
otherwise the two `NCFLTNM` alternate keys are searched. -/
def notcam_get_photfilter (hdr : Header) : Except PyErr String :=
  match hget hdr "FILTER" with
  | some _ => .error .runtimeError
  | none =>
      match collectFilters hdr ["NCFLTNM1", "NCFLTNM2"] [] with
      | .error e => .error e
      | .ok [f] => .ok (lookupD notcamFilterTable f f)
      | .ok _ => .error .runtimeError

/-- Embeds the inherited `Instrument.get_exptime`: the `EXPTIME` header
value, raising `ValueError` when absent. -/
def instrument_get_exptime (hdr : Header) : Except PyErr HVal :=
  match hget hdr "EXPTIME" with
  | none => .error .valueError
  | some v => .ok v

/-- Embeds `AstroNIRCam.get_exptime`: the `FULL_EXP` header value when
present, else the inherited `EXPTIME` logic. -/
def astronircam_get_exptime (hdr : Header) : Except PyErr HVal :=
  match hget hdr "FULL_EXP" with
  | some v => .ok v
  | none => instrument_get_exptime hdr

/-- Embeds the `hdr.get` calls with empty-string default in `load_image`; the
matching fields are strings in FITS practice, so a non-string value is
read as the empty-string default. -/
def headerFieldStr (hdr : Header) (k : String) : String :=
  match hget hdr k with
  | some (.str s) => s
  | _ => ""

/-- The `TELESCOP` field extracted by `load_image`. -/
def telescopeOf (hdr : Header) : String := headerFieldStr hdr "TELESCOP"

/-- The `ORIGIN` field extracted by `load_image`. -/
def originOf (hdr : Header) : String := headerFieldStr hdr "ORIGIN"

/-- The `INSTRUME` field extracted by `load_image`. -/
def instrumentOf (hdr : Header) : String := headerFieldStr hdr "INSTRUME"

/-- The registry walk of `load_image`: the first variant in registry order
whose `identifier` accepts the primary-header fields. -/
def matchInstrument (registry : List InstSpec) (telescope origin instrument : String)
    (hdr : Header) : Option InstSpec :=
  registry.find? (fun s => runIdentifier s telescope origin instrument hdr)

/-- The extension index, mask and matched rule set produced by one
`load_image` call; the matched `spec` is what determines every subsequent
per-variant metadata-extraction rule (`process_image`). -/
structure LoadResult where
  spec : InstSpec
  ext : ℕ
  mask : Option (List (List Bool))
deriving DecidableEq

/-- The body `load_image` runs for the matched variant: resolve the
extension (propagating its failure) and the mask. -/
def applyVariant (s : InstSpec) (hdul : HDUList) (target : Option TargetInput) :
    Except PyErr LoadResult :=
  match runGetExt s hdul target with
  | .error e => .error e
  | .ok ext => .ok { spec := s, ext := ext, mask := runGetMask s hdul }

/-- Embeds the dispatch portion of `load_image`: read the primary header
fields, walk the registry, run the first matching variant, and raise
`RuntimeError` (returning nothing) when no variant matches. -/
def load_image (registry : List InstSpec) (hdul : HDUList)
    (target : Option TargetInput) : Except PyErr LoadResult :=
  match hdul.head? with
  | none => .error .indexError
  | some primary =>
      let hdr := primary.header
      match matchInstrument registry (telescopeOf hdr) (originOf hdr)
          (instrumentOf hdr) hdr with
      | some s => applyVariant s hdul target
      | none => .error .runtimeError

/-- Whether the target projects inside extension `k` of `hdul` (used to
state the HAWKI search property; false when the extension is missing). -/
def boundsAt (hdul : HDUList) (k : ℕ) (tc : ℚ × ℚ) : Bool :=
  match hdul[k]? with
  | some e => hawkiInBounds e (e.world2pix tc)
  | none => false

/-- A 3x3 image whose centre pixel is non-finite and no pixel is zero. -/
def nanCentreImage : ℕ → ℕ → Pix :=
  fun i j => if i = 1 ∧ j = 1 then none else some 5

/-- A 2x2 image with one non-finite pixel. -/
def nanCornerImage : ℕ → ℕ → Pix :=
  fun i j => if i = 0 ∧ j = 0 then none else some 3

/-- A 3x3 image with a uniform zero border and non-zero centre. -/
def borderZeroImage : ℕ → ℕ → Pix :=
  fun i j => if i = 0 ∨ i = 2 ∨ j = 0 ∨ j = 2 then some 0 else some 5

/-- A primary header matching both `ALFOSC` and the catch-all `AFOSC`. -/
def alfoscHdr : Header :=
  [("TELESCOP", .str "NOT"), ("INSTRUME", .str "ALFOSC"), ("OBS_MODE", .str "imaging")]

/-- A one-extension file carrying `alfoscHdr` as its primary header. -/
def alfoscHDUL : HDUList := [{ header := alfoscHdr }]

/-- A header satisfying the `Dupont` unique-header criterion. -/
def dupontHdr : Header := [("SITENAME", .str "LCO")]

/-- A test extension whose world-coordinate mapping shifts right ascension
by `off` and whose pixel grid is 10x10. -/
def hawkiTestHDU (off : ℚ) : HDU :=
  { naxis1 := 10, naxis2 := 10, world2pix := fun p => (p.1 - off, p.2) }

/-- A synthetic 4-extension file whose extensions cover disjoint strips of
the sky; the coordinate `(25, 5)` falls inside extension 3 only. -/
def hawkiTestHDUL : HDUList :=
  [{ }, hawkiTestHDU 0, hawkiTestHDU 10, hawkiTestHDU 20, hawkiTestHDU 30]

/-- A header without `FILTER` where exactly one alternate key holds a
plausible (non-open) filter label. -/
def alfoscAltHdr : Header :=
  [("ALFLTNM", .str "g\x27_SDSS 480_145"), ("FAFLTNM", .str "Open"),
   ("FBFLTNM", .str "open ")]

/-- A header carrying both the standard and the alternate exposure keys. -/
def astronircamCxHdr : Header := [("EXPTIME", .num 5), ("FULL_EXP", .num 10)]

/-- A header carrying only the standard exposure key. -/
def astronircamWitHdr : Header := [("EXPTIME", .num 7)]

theorem masked_pixels_create (fi : FlowsImage) :
    masked_pixels (create_masked_image fi) = masked_pixels fi := by
  funext i j
  simp only [masked_pixels, create_masked_image]
  by_cases hm : fi.mask i j <;> simp [hm, masked_pixels]

theorem firstFalse_eq_one (f : ℕ → Bool) (t : ℕ) (h0 : f 0 = true) (h1 : f 1 = false) :
    firstFalse f 0 (t+2) = 1 := by
  have e : firstFalse f 0 (t+2) =
      if f 0 = true then (if f 1 = true then firstFalse f 2 t else 1) else 0 := rfl
  rw [e, if_pos h0, if_neg (by simp [h1])]

theorem find_first_match {α : Type} (p : α → Bool) :
    ∀ (l : List α) (k : ℕ) (x : α), l[k]? = some x → p x = true →
    ∃ i y, i ≤ k ∧ l[i]? = some y ∧ p y = true ∧
      (∀ i' z, i' < i → l[i']? = some z → p z = false) ∧ l.find? p = some y := by
  intro l
  induction l with
  | nil => intro k x hk; simp at hk
  | cons a t ih =>
    intro k x hk hx
    cases hpa : p a with
    | true =>
      refine ⟨0, a, Nat.zero_le _, by simp, hpa, ?_, ?_⟩
      · intro i' z hi'
        exact absurd hi' (Nat.not_lt_zero _)
      · exact List.find?_cons_of_pos _ hpa
    | false =>
      cases k with
      | zero =>
        have hax : a = x := by simpa using hk
        rw [hax] at hpa
        rw [hpa] at hx
        exact absurd hx (by simp)
      | succ k =>
        have hk' : t[k]? = some x := by simpa using hk
        obtain ⟨i, y, hik, hiy, hpy, hmin, hfind⟩ := ih k x hk' hx
        refine ⟨i+1, y, by omega, by simpa using hiy, hpy, ?_, ?_⟩
        · intro i' z hi' hz
          cases i' with
          | zero =>
            have haz : a = z := by simpa using hz
            rw [← haz]
            exact hpa
          | succ i'' =>
            exact hmin i'' z (by omega) (by simpa using hz)
        · rw [List.find?_cons_of_neg _ (by simp [hpa]), hfind]

theorem containsAux_iff (sub : List Char) : ∀ l, containsAux sub l = true ↔ sub <:+: l := by
  intro l
  induction l with
  | nil => simp [containsAux, List.isEmpty_iff, List.infix_nil]
  | cons c t ih =>
    simp [containsAux, ih, List.infix_cons_iff, List.isPrefixOf_iff_prefix]

theorem substrIn_iff (sub s : String) : substrIn sub s = true ↔ sub.data <:+: s.data :=
  containsAux_iff sub.data s.data

theorem identTelescopeIff (s : InstSpec) (telescope : String) :
    ((if s.telescope = "" then true else substrIn s.telescope telescope) = true) ↔
      (s.telescope = "" ∨ s.telescope.data <:+: telescope.data) := by
  by_cases h : s.telescope = "" <;> simp [h, substrIn_iff]

theorem identOriginIff (s : InstSpec) (origin : String) :
    ((if s.origin = "" then true else decide (s.origin = origin)) = true) ↔
      (s.origin = "" ∨ origin = s.origin) := by
  by_cases h : s.origin = "" <;> simp [h, eq_comm]

theorem identInstrumentIff (s : InstSpec) (instrument : String) :
    ((if s.instrument = "" then true else substrIn s.instrument instrument) = true) ↔
      (s.instrument = "" ∨ s.instrument.data <:+: instrument.data) := by
  by_cases h : s.instrument = "" <;> simp [h, substrIn_iff]

theorem identUniqueIff (s : InstSpec) (hdr : Header) :
    (uniqueConds s hdr = true) ↔
      (∀ uh, s.unique_headers = some uh → ∀ p ∈ uh, hget hdr p.1 = some p.2) := by
  cases hu : s.unique_headers with
  | none => simp [uniqueConds, hu]
  | some u => simp [uniqueConds, hu, List.all_eq_true]

theorem collectFilters_three (hdr : Header) (k1 k2 k3 v1 v2 v3 : String)
    (h1 : hget hdr k1 = some (.str v1)) (h2 : hget hdr k2 = some (.str v2))
    (h3 : hget hdr k3 = some (.str v3)) :
    collectFilters hdr [k1, k2, k3] [] =
      .ok (([v1, v2, v3].filter plausibleFilter).map pyStrip) := by
  simp only [collectFilters, appendFilter, h1, h2, h3]
  by_cases p1 : plausibleFilter v1 <;> by_cases p2 : plausibleFilter v2 <;>
    by_cases p3 : plausibleFilter v3 <;> simp [p1, p2, p3]

theorem collectFilters_two (hdr : Header) (k1 k2 v1 v2 : String)
    (h1 : hget hdr k1 = some (.str v1)) (h2 : hget hdr k2 = some (.str v2)) :
    collectFilters hdr [k1, k2] [] =
      .ok (([v1, v2].filter plausibleFilter).map pyStrip) := by
  simp only [collectFilters, appendFilter, h1, h2]
  by_cases p1 : plausibleFilter v1 <;> by_cases p2 : plausibleFilter v2 <;> simp [p1, p2]

/-- C1, counterexample: the claim is false for `apply_edge_mask`.  Starting
from a freshly constructed container holding a non-finite centre pixel (so
the invariant holds), `apply_edge_mask` replaces the mask by the computed
edge mask — which cannot see NaN pixels, since NaN compares unequal to the
edge value — and never re-runs `check_finite`, leaving the non-finite
centre pixel unmasked. -/
theorem C1_nonfinite_masked_cx :
    ¬ finite_invariant (apply_edge_mask (post_init 3 3 nanCentreImage none)
      none none false) := by
  decide

/-- C1, amended: every non-finite pixel position is masked after
construction and after `update_mask`, and `create_masked_image` preserves
the invariant; `apply_edge_mask` is excluded because it replaces the mask
with only the freshly computed edge mask (see the counterexample). -/
theorem C1_nonfinite_masked_amended :
    (∀ (M N : ℕ) (img : ℕ → ℕ → Pix) (mask? : Option (ℕ → ℕ → Bool)),
        finite_invariant (post_init M N img mask?)) ∧
    (∀ (fi : FlowsImage) (mk : ℕ → ℕ → Bool), finite_invariant (update_mask fi mk)) ∧
    (∀ fi : FlowsImage, finite_invariant fi →
        finite_invariant (create_masked_image fi)) := by
  refine ⟨?_, ?_, ?_⟩
  · intro M N img mask? i hi j hj hnf
    simp only [post_init, check_finite] at hnf ⊢
    simp [hnf]
  · intro fi mk i hi j hj hnf
    simp only [update_mask, check_finite] at hnf ⊢
    simp [hnf]
  · intro fi hfi i hi j hj hnf
    simp only [create_masked_image] at hnf ⊢
    by_cases hm : fi.mask i j
    · exact hm
    · have hx : pixFinite (fi.image i j) = false := by
        simpa [masked_pixels, hm] using hnf
    
      exact hfi i hi j hj hx

/-- C1, witness: the amended invariant-preservation applied to a concrete
container with a non-finite pixel. -/
theorem C1_nonfinite_masked_witness :
    finite_invariant (create_masked_image (post_init 2 2 nanCornerImage none)) :=
  C1_nonfinite_masked_amended.2.2 _ (by decide)

/-- C2: dispatch is first-match in registry insertion order: whenever two
registered variants both accept the primary header, `load_image` runs the
rules of the earliest matching variant, which is never the later of the
two. -/
theorem C2_dispatch_first_match (registry : List InstSpec) (hdul : HDUList)
    (target : Option TargetInput) (primary : HDU)
    (hhd : hdul.head? = some primary)
    (j k : ℕ) (sj sk : InstSpec) (_hjk : j < k)
    (hj : registry[j]? = some sj) (_hk : registry[k]? = some sk)
    (hmj : runIdentifier sj (telescopeOf primary.header) (originOf primary.header)
      (instrumentOf primary.header) primary.header = true)
    (_hmk : runIdentifier sk (telescopeOf primary.header) (originOf primary.header)
      (instrumentOf primary.header) primary.header = true) :
    ∃ l sl, l ≤ j ∧ registry[l]? = some sl ∧
      runIdentifier sl (telescopeOf primary.header) (originOf primary.header)
        (instrumentOf primary.header) primary.header = true ∧
      (∀ l' s', l' < l → registry[l']? = some s' →
        runIdentifier s' (telescopeOf primary.header) (originOf primary.header)
          (instrumentOf primary.header) primary.header = false) ∧
      load_image registry hdul target = applyVariant sl hdul target := by
  obtain ⟨l, sl, hlj, hls, hpl, hmin, hfind⟩ :=
    find_first_match
      (fun s => runIdentifier s (telescopeOf primary.header) (originOf primary.header)
        (instrumentOf primary.header) primary.header) registry j sj hj hmj
  refine ⟨l, sl, hlj, hls, hpl, hmin, ?_⟩
  simp only [load_image, hhd, matchInstrument, hfind]

/-- C2, witness: `alfoscHdr` matches both `ALFOSC` (index 2) and the
catch-all `AFOSC` (index 22), and loading runs the rules of `ALFOSC`. -/
theorem C2_dispatch_first_match_witness :
    load_image instruments alfoscHDUL none = applyVariant alfoscSpec alfoscHDUL none := by
  obtain ⟨l, sl, hlj, hls, hpl, hmin, hfinal⟩ :=
    C2_dispatch_first_match instruments alfoscHDUL none { header := alfoscHdr } rfl
      2 22 alfoscSpec afoscSpec (by omega) rfl rfl (by decide) (by decide)
  interval_cases l
  · rw [show instruments[0]? = some lcogtSpec from rfl] at hls
    injection hls with h
    rw [← h] at hpl
    exact absurd hpl (by decide)
  · rw [show instruments[1]? = some hawkiSpec from rfl] at hls
    injection hls with h
    rw [← h] at hpl
    exact absurd hpl (by decide)
  · rw [show instruments[2]? = some alfoscSpec from rfl] at hls
    injection hls with h
    rw [← h] at hfinal
    exact hfinal

/-- C3: because their class-level telescope/instrument lines are bare colon
annotations, `AFOSC` keeps the inherited empty match criteria and accepts
every input, and the acceptance of `Schmidt` reduces to its `SITELAT` unique
header equalling `45.8494444`. -/
theorem C3_bare_fields_matching :
    (∀ (t o i : String) (hdr : Header), runIdentifier afoscSpec t o i hdr = true) ∧
    (∀ (t o i : String) (hdr : Header),
      runIdentifier schmidtSpec t o i hdr =
        decide (hget hdr "SITELAT" = some (.num 45.8494444))) := by
  constructor
  · intro t o i hdr
    rfl
  · intro t o i hdr
    simp [runIdentifier, defaultIdentifier, uniqueConds, schmidtSpec]

/-- C4: when no registered variant's identifier accepts the primary header
fields, `load_image` raises the fatal no-match error and produces no
result. -/
theorem C4_no_match_raises (registry : List InstSpec) (hdul : HDUList)
    (target : Option TargetInput) (primary : HDU)
    (hhd : hdul.head? = some primary)
    (hnone : ∀ s ∈ registry, runIdentifier s (telescopeOf primary.header)
      (originOf primary.header) (instrumentOf primary.header) primary.header = false) :
    load_image registry hdul target = .error .runtimeError := by
  have hfind : registry.find? (fun s => runIdentifier s (telescopeOf primary.header)
      (originOf primary.header) (instrumentOf primary.header) primary.header) = none := by
    rw [List.find?_eq_none]
    intro x hx
    simp [hnone x hx]
  simp only [load_image, hhd, matchInstrument, hfind]

/-- C4, witness: a registry slice with no catch-all rejects an empty
header and the load raises. -/
theorem C4_no_match_raises_witness :
    load_image [lcogtSpec, hawkiSpec] [({} : HDU)] none = .error .runtimeError :=
  C4_no_match_raises [lcogtSpec, hawkiSpec] [({} : HDU)] none {} rfl (by decide)

/-- C5: the HAWKI extension resolver raises when no target coordinate was
supplied; returns the unique extension among 1..4 whose projected target
position lies within its half-pixel-margin bounds; and when no extension
contains the target it raises unless a fallback extension was configured,
in which case the fallback is returned. -/
theorem C5_hawki_ext_search :
    (∀ (hdul : HDUList) (fb : Option ℕ), hawki_get_ext hdul none fb = .error .valueError) ∧
    (∀ (hdul : HDUList) (ra dec : ℚ) (fb : Option ℕ) (k : ℕ),
      (∀ t ∈ [1, 2, 3, 4], (hdul[t]?).isSome = true) →
      k ∈ [1, 2, 3, 4] →
      boundsAt hdul k (ra, dec) = true →
      (∀ t ∈ [1, 2, 3, 4], t ≠ k → boundsAt hdul t (ra, dec) = false) →
      hawki_get_ext hdul (some (.sky ra dec)) fb = .ok k) ∧
    (∀ (hdul : HDUList) (ra dec : ℚ),
      (∀ t ∈ [1, 2, 3, 4], (hdul[t]?).isSome = true) →
      (∀ t ∈ [1, 2, 3, 4], boundsAt hdul t (ra, dec) = false) →
      hawki_get_ext hdul (some (.sky ra dec)) none = .error .runtimeError ∧
      ∀ f, hawki_get_ext hdul (some (.sky ra dec)) (some f) = .ok f) := by
  refine ⟨fun hdul fb => rfl, ?_, ?_⟩
  · intro hdul ra dec fb k hpres hk hin hothers
    obtain ⟨e1, he1⟩ := Option.isSome_iff_exists.mp (hpres 1 (by simp))
    obtain ⟨e2, he2⟩ := Option.isSome_iff_exists.mp (hpres 2 (by simp))
    obtain ⟨e3, he3⟩ := Option.isSome_iff_exists.mp (hpres 3 (by simp))
    obtain ⟨e4, he4⟩ := Option.isSome_iff_exists.mp (hpres 4 (by simp))
    fin_cases hk
    · have hb1 : hawkiInBounds e1 (e1.world2pix (ra, dec)) = true := by
        simpa only [boundsAt, he1] using hin
      simp [hawki_get_ext, verify_coordinates, hawkiSearch, he1, hb1]
    · have hb1 : hawkiInBounds e1 (e1.world2pix (ra, dec)) = false := by
        simpa only [boundsAt, he1] using hothers 1 (by simp) (by omega)
      have hb2 : hawkiInBounds e2 (e2.world2pix (ra, dec)) = true := by
        simpa only [boundsAt, he2] using hin
      simp [hawki_get_ext, verify_coordinates, hawkiSearch, he1, hb1, he2, hb2]
    · have hb1 : hawkiInBounds e1 (e1.world2pix (ra, dec)) = false := by
        simpa only [boundsAt, he1] using hothers 1 (by simp) (by omega)
      have hb2 : hawkiInBounds e2 (e2.world2pix (ra, dec)) = false := by
        simpa only [boundsAt, he2] using hothers 2 (by simp) (by omega)
      have hb3 : hawkiInBounds e3 (e3.world2pix (ra, dec)) = true := by
        simpa only [boundsAt, he3] using hin
      simp [hawki_get_ext, verify_coordinates, hawkiSearch, he1, hb1, he2, hb2, he3, hb3]
    · have hb1 : hawkiInBounds e1 (e1.world2pix (ra, dec)) = false := by
        simpa only [boundsAt, he1] using hothers 1 (by simp) (by omega)
      have hb2 : hawkiInBounds e2 (e2.world2pix (ra, dec)) = false := by
        simpa only [boundsAt, he2] using hothers 2 (by simp) (by omega)
      have hb3 : hawkiInBounds e3 (e3.world2pix (ra, dec)) = false := by
        simpa only [boundsAt, he3] using hothers 3 (by simp) (by omega)
      have hb4 : hawkiInBounds e4 (e4.world2pix (ra, dec)) = true := by
        simpa only [boundsAt, he4] using hin
      simp [hawki_get_ext, verify_coordinates, hawkiSearch, he1, hb1, he2, hb2, he3, hb3,
        he4, hb4]
  · intro hdul ra dec hpres hall
    obtain ⟨e1, he1⟩ := Option.isSome_iff_exists.mp (hpres 1 (by simp))
    obtain ⟨e2, he2⟩ := Option.isSome_iff_exists.mp (hpres 2 (by simp))
    obtain ⟨e3, he3⟩ := Option.isSome_iff_exists.mp (hpres 3 (by simp))
    obtain ⟨e4, he4⟩ := Option.isSome_iff_exists.mp (hpres 4 (by simp))
    have hb1 : hawkiInBounds e1 (e1.world2pix (ra, dec)) = false := by
      simpa only [boundsAt, he1] using hall 1 (by simp)
    have hb2 : hawkiInBounds e2 (e2.world2pix (ra, dec)) = false := by
      simpa only [boundsAt, he2] using hall 2 (by simp)
    have hb3 : hawkiInBounds e3 (e3.world2pix (ra, dec)) = false := by
      simpa only [boundsAt, he3] using hall 3 (by simp)
    have hb4 : hawkiInBounds e4 (e4.world2pix (ra, dec)) = false := by
      simpa only [boundsAt, he4] using hall 4 (by simp)
    constructor
    · simp [hawki_get_ext, verify_coordinates, hawkiSearch, he1, hb1, he2, hb2, he3, hb3,
        he4, hb4]
    · intro f
      simp [hawki_get_ext, verify_coordinates, hawkiSearch, he1, hb1, he2, hb2, he3, hb3,
        he4, hb4]

/-- C5, witness: on the synthetic 4-extension file the target `(25, 5)`
falls inside extension 3's footprint only, and extension 3 is returned. -/
theorem C5_hawki_ext_search_witness :
    hawki_get_ext hawkiTestHDUL (some (.sky 25 5)) none = .ok 3 :=
  C5_hawki_ext_search.2.1 hawkiTestHDUL 25 5 none 3 (by decide) (by decide)
    (by norm_num [boundsAt, hawkiTestHDUL, hawkiTestHDU, hawkiInBounds])
    (by norm_num [boundsAt, hawkiTestHDUL, hawkiTestHDU, hawkiInBounds])

/-- C6: the default identifier accepts exactly when all four configured
criteria hold — telescope substring (or none configured), exact origin (or
none), instrument substring (or none), and every configured unique header
key present with exactly the configured value (or none declared). -/
theorem C6_default_identifier_iff (s : InstSpec) (telescope origin instrument : String)
    (hdr : Header) :
    defaultIdentifier s telescope origin instrument hdr = true ↔
      ((s.telescope = "" ∨ s.telescope.data <:+: telescope.data) ∧
       (s.origin = "" ∨ origin = s.origin) ∧
       (s.instrument = "" ∨ s.instrument.data <:+: instrument.data) ∧
       (∀ uh, s.unique_headers = some uh → ∀ p ∈ uh, hget hdr p.1 = some p.2)) := by
  simp only [defaultIdentifier, Bool.and_eq_true, identTelescopeIff, identOriginIff,
    identInstrumentIff, identUniqueIff]
  tauto

/-- C6, witness: the configured telescope name of `Dupont` is a substring of a
matching header's telescope field, extracted from a concrete accepting
instance of the default identifier. -/
theorem C6_default_identifier_iff_witness :
    dupontSpec.telescope.data <:+: ("DUP 100").data :=
  (((C6_default_identifier_iff dupontSpec "DUP 100" "" "Direct/SITe2K-1" dupontHdr).mp
    (by decide)).1).resolve_left (by decide)

/-- C7: for ALFOSC and NOTCAM with the standard filter key absent and the
alternate keys readable, the filter is the unique plausible (non-open)
label translated through the variant's lookup table with the untranslated
label as fallback, and zero or more than one plausible label is a fatal
error. -/
theorem C7_filter_ambiguity :
    (∀ (hdr : Header) (v1 v2 v3 : String),
      hget hdr "FILTER" = none →
      hget hdr "ALFLTNM" = some (.str v1) →
      hget hdr "FAFLTNM" = some (.str v2) →
      hget hdr "FBFLTNM" = some (.str v3) →
      (∀ v, [v1, v2, v3].filter plausibleFilter = [v] →
        alfosc_get_photfilter hdr =
          .ok (lookupD alfoscFilterTableB (pyReplace (pyStrip v) "  " " ") (pyStrip v))) ∧
      (([v1, v2, v3].filter plausibleFilter).length ≠ 1 →
        alfosc_get_photfilter hdr = .error .runtimeError)) ∧
    (∀ (hdr : Header) (v1 v2 : String),
      hget hdr "FILTER" = none →
      hget hdr "NCFLTNM1" = some (.str v1) →
      hget hdr "NCFLTNM2" = some (.str v2) →
      (∀ v, [v1, v2].filter plausibleFilter = [v] →
        notcam_get_photfilter hdr =
          .ok (lookupD notcamFilterTable (pyStrip v) (pyStrip v))) ∧
      (([v1, v2].filter plausibleFilter).length ≠ 1 →
        notcam_get_photfilter hdr = .error .runtimeError)) := by
  constructor
  · intro hdr v1 v2 v3 hF h1 h2 h3
    have hc := collectFilters_three hdr _ _ _ v1 v2 v3 h1 h2 h3
    constructor
    · intro v hv
      simp [alfosc_get_photfilter, hF, hc, hv]
    · intro hlen
      rcases hlist : [v1, v2, v3].filter plausibleFilter with _ | ⟨a, _ | ⟨b, l⟩⟩
      · simp [alfosc_get_photfilter, hF, hc, hlist]
      · rw [hlist] at hlen
        simp at hlen
      · simp [alfosc_get_photfilter, hF, hc, hlist]
  · intro hdr v1 v2 hF h1 h2
    have hc := collectFilters_two hdr _ _ v1 v2 h1 h2
    constructor
    · intro v hv
      simp [notcam_get_photfilter, hF, hc, hv]
    · intro hlen
      rcases hlist : [v1, v2].filter plausibleFilter with _ | ⟨a, _ | ⟨b, l⟩⟩
      · simp [notcam_get_photfilter, hF, hc, hlist]
      · rw [hlist] at hlen
        simp at hlen
      · simp [notcam_get_photfilter, hF, hc, hlist]

/-- C7, witness: with exactly one plausible alternate filter label, ALFOSC
returns it translated through the lookup table. -/
theorem C7_filter_ambiguity_witness :
    alfosc_get_photfilter alfoscAltHdr = .ok "gp" := by
  have h := (C7_filter_ambiguity.1 alfoscAltHdr "g\x27_SDSS 480_145" "Open" "open "
    rfl rfl rfl rfl).1 "g\x27_SDSS 480_145" (by decide)
  rw [h]
  rfl

/-- C8: on an image with a uniform zero border surrounding a strictly
non-zero interior, `get_edge_mask` marks exactly the border pixels. -/
theorem C8_edge_mask_border (m n : ℕ) (img : ℕ → ℕ → Pix)
    (hborder : ∀ i, i < m+3 → ∀ j, j < n+3 →
      (i = 0 ∨ i = m+2 ∨ j = 0 ∨ j = n+2) → img i j = some 0)
    (hinterior : ∀ i, i < m+3 → ∀ j, j < n+3 →
      ¬(i = 0 ∨ i = m+2 ∨ j = 0 ∨ j = n+2) → img i j ≠ some 0) :
    ∀ i, i < m+3 → ∀ j, j < n+3 →
      (get_edge_mask (m+3) (n+3) img 0 i j = true ↔
        (i = 0 ∨ i = m+2 ∨ j = 0 ∨ j = n+2)) := by
  have hmask : ∀ a, a < m+3 → ∀ b, b < n+3 →
      (pixEq (img a b) 0 = true ↔ (a = 0 ∨ a = m+2 ∨ b = 0 ∨ b = n+2)) := by
    intro a ha b hb
    simp only [pixEq, decide_eq_true_eq]
    constructor
    · intro he
      by_contra hnb
      exact hinterior a ha b hb hnb he
    · exact hborder a ha b hb
  intro i hi j hj
  by_cases hib : i = 0 ∨ i = m+2
  · have hrow : rowAllVal img 0 (n+3) i = true := by
      simp only [rowAllVal, decide_eq_true_eq]
      intro b hb
      exact (hmask i hi b hb).mpr (by tauto)
    refine iff_of_true ?_ (by tauto)
    simp [get_edge_mask, hrow]
  by_cases hjb : j = 0 ∨ j = n+2
  · have hcol : colAllVal img 0 (m+3) j = true := by
      simp only [colAllVal, decide_eq_true_eq]
      intro a ha
      exact (hmask a ha j hj).mpr (by tauto)
    refine iff_of_true ?_ (by tauto)
    simp [get_edge_mask, hcol]
  have hib' : i ≠ 0 ∧ i ≠ m+2 := by tauto
  have hjb' : j ≠ 0 ∧ j ≠ n+2 := by tauto
  have hi1 : 1 ≤ i := by omega
  have hi2 : i ≤ m+1 := by omega
  have hj1 : 1 ≤ j := by omega
  have hj2 : j ≤ n+1 := by omega
  have c1 : rowAllVal img 0 (n+3) i = false := by
    simp only [rowAllVal, decide_eq_false_iff_not]
    intro hall
    rcases (hmask i hi 1 (by omega)).mp (hall 1 (by omega)) with h' | h' | h' | h' <;> omega
  have c2 : colAllVal img 0 (m+3) j = false := by
    simp only [colAllVal, decide_eq_false_iff_not]
    intro hall
    rcases (hmask 1 (by omega) j hj).mp (hall 1 (by omega)) with h' | h' | h' | h' <;> omega
  have h0a : pixEq (img 0 j) 0 = true := (hmask 0 (by omega) j hj).mpr (Or.inl rfl)
  have h1a : pixEq (img 1 j) 0 = false := by
    cases hpe : pixEq (img 1 j) 0 with
    | false => rfl
    | true =>
      rcases (hmask 1 (by omega) j hj).mp hpe with h' | h' | h' | h' <;> omega
  have af : firstFalse (fun t => pixEq (img t j) 0) 0 (m+3) = 1 :=
    firstFalse_eq_one _ (m+1) h0a h1a
  have h0b : pixEq (img (m+3-1) j) 0 = true :=
    (hmask (m+2) (by omega) j hj).mpr (Or.inr (Or.inl rfl))
  have h1b : pixEq (img (m+1) j) 0 = false := by
    cases hpe : pixEq (img (m+1) j) 0 with
    | false => rfl
    | true =>
      rcases (hmask (m+1) (by omega) j hj).mp hpe with h' | h' | h' | h' <;> omega
  have bf : firstFalse (fun t => pixEq (img (m+3-1-t) j) 0) 0 (m+3) = 1 :=
    firstFalse_eq_one _ (m+1) h0b h1b
  have h0c : pixEq (img i 0) 0 = true :=
    (hmask i hi 0 (by omega)).mpr (by tauto)
  have h1c : pixEq (img i 1) 0 = false := by
    cases hpe : pixEq (img i 1) 0 with
    | false => rfl
    | true =>
      rcases (hmask i hi 1 (by omega)).mp hpe with h' | h' | h' | h' <;> omega
  have cf : firstFalse (fun t => pixEq (img i t) 0) 0 (n+3) = 1 :=
    firstFalse_eq_one _ (n+1) h0c h1c
  have h0d : pixEq (img i (n+3-1)) 0 = true :=
    (hmask i hi (n+2) (by omega)).mpr (by tauto)
  have h1d : pixEq (img i (n+1)) 0 = false := by
    cases hpe : pixEq (img i (n+1)) 0 with
    | false => rfl
    | true =>
      rcases (hmask i hi (n+1) (by omega)).mp hpe with h' | h' | h' | h' <;> omega
  have df : firstFalse (fun t => pixEq (img i (n+3-1-t)) 0) 0 (n+3) = 1 :=
    firstFalse_eq_one _ (n+1) h0d h1d
  refine iff_of_false ?_ (by tauto)
  simp only [get_edge_mask, c1, c2, af, bf, cf, df, h0a, h0b, h0c, h0d, negSlice]
  simp only [Bool.false_or, Bool.true_and]
  simp
  omega

/-- C8, witness: on the concrete 3x3 bordered image the centre pixel is
unmarked and a border pixel is marked. -/
theorem C8_edge_mask_border_witness :
    get_edge_mask 3 3 borderZeroImage 0 1 1 = false ∧
    get_edge_mask 3 3 borderZeroImage 0 0 1 = true := by
  have h := C8_edge_mask_border 0 0 borderZeroImage (by decide) (by decide)
  constructor
  · have h11 := h 1 (by omega) 1 (by omega)
    cases hgv : get_edge_mask 3 3 borderZeroImage 0 1 1 with
    | false => rfl
    | true =>
      rcases h11.mp hgv with h' | h' | h' | h' <;> omega
  · exact (h 0 (by omega) 1 (by omega)).mpr (Or.inl rfl)

/-- C9: `create_masked_image` is idempotent: a second call on the resulting
container leaves the pixel grid, the mask and the `clean` view unchanged. -/
theorem C9_create_masked_image_idempotent (fi : FlowsImage) :
    create_masked_image (create_masked_image fi) = create_masked_image fi := by
  obtain ⟨M, N, img, mk, cl⟩ := fi
  have h := masked_pixels_create ⟨M, N, img, mk, cl⟩
  simp only [create_masked_image] at h ⊢
  rw [h]

/-- C10, counterexample: with both `FULL_EXP` and the standard `EXPTIME`
present, `AstroNIRCam.get_exptime` returns the `FULL_EXP` value, not the
standard key's value as the claim states. -/
theorem C10_exptime_cx :
    astronircam_get_exptime astronircamCxHdr = .ok (.num 10) ∧
    astronircam_get_exptime astronircamCxHdr ≠ .ok (.num 5) := by
  constructor
  · rfl
  · intro h
    rw [show astronircam_get_exptime astronircamCxHdr = .ok (.num 10) from rfl] at h
    injection h with h2
    injection h2 with h3
    exact absurd h3 (by norm_num)

/-- C10, amended: `AstroNIRCam.get_exptime` returns the alternate
`FULL_EXP` header value whenever that key is present; only when it is
missing does it fall back to the standard `EXPTIME` key, raising when both
are absent. -/
theorem C10_exptime_amended (hdr : Header) :
    (∀ v, hget hdr "FULL_EXP" = some v → astronircam_get_exptime hdr = .ok v) ∧
    (hget hdr "FULL_EXP" = none → ∀ w, hget hdr "EXPTIME" = some w →
      astronircam_get_exptime hdr = .ok w) ∧
    (hget hdr "FULL_EXP" = none → hget hdr "EXPTIME" = none →
      astronircam_get_exptime hdr = .error .valueError) := by
  refine ⟨?_, ?_, ?_⟩
  · intro v hv
    simp [astronircam_get_exptime, hv]
  · intro hn w hw
    simp [astronircam_get_exptime, instrument_get_exptime, hn, hw]
  · intro hn hn2
    simp [astronircam_get_exptime, instrument_get_exptime, hn, hn2]

/-- C10, witness: with only the standard key present its value is
returned. -/
theorem C10_exptime_witness :
    astronircam_get_exptime astronircamWitHdr = .ok (.num 7) :=
  (C10_exptime_amended astronircamWitHdr).2.1 rfl (.num 7) rfl
